import Mathlib

/-!
Verification of the hybrid-memory chatbot pipeline.

This file gives a shallow embedding of the retrieval and consolidation
pipeline of the chatbot repository and proves properties of it:

* `app/services/llm/temporal_agent_service.py`
  (`generate_sql_query`, `_clean_sql_response`, `_validate_sql_query`),
* `app/services/temporal_service.py`
  (`get_recent_messages`, `execute_sql_query`, `get_all_messages`,
  `filter_relevant_messages`),
* `app/services/memory_service.py` (`query_similar_documents`),
* `app/services/llm/memorize_agent_service.py` (`important_till_now`),
* `app/api/chat_router.py` (`save_memory_in_background`).

External collaborators (the Gemini model calls, the sklearn TF-IDF
similarity computation, the Chroma vector index and the SQLite engine)
are modelled as explicit parameters: an LLM call that may fail is an
`Option String`, a store call that may fail is an `Except Unit` value,
and numeric scores computed by external libraries are passed in as
rational numbers.  All Python string manipulation that the code performs
itself (lower-casing, `in` tests, `split`, `replace`, `strip`,
`startswith`) is embedded faithfully below.
-/

namespace ChatMemory

/-! ### Python string primitives

The embedded services manipulate ASCII SQL text with `str.lower`,
`str.startswith`, the `in` operator, `str.split(sep)[0]`, `str.strip`
and `str.replace`.  These are modelled on `List Char` / `String`.
A single-quote character is built numerically so that SQL literals can
be assembled without quote characters appearing in the Lean source. -/

/-- ASCII single-quote character (code point 39). -/
def squote : Char := Char.ofNat 39

/-- Single-quote as a one-character string. -/
def squoteS : String := String.singleton squote

/-- Python `s.lower()` restricted to ASCII text. -/
def pyLower (s : String) : String := String.mk (s.data.map Char.toLower)

/-- Python `s.startswith(p)`. -/
def pyStartsWith (s p : String) : Bool := p.data.isPrefixOf s.data

/-- Occurrence test on character lists: `occursIn pat text` holds when
`pat` appears as a contiguous sublist of `text` (Python `pat in text`). -/
def occursIn (pat : List Char) : List Char → Bool
  | [] => pat.isEmpty
  | c :: t => pat.isPrefixOf (c :: t) || occursIn pat t

/-- Python `pat in s` for strings. -/
def pyIn (pat s : String) : Bool := occursIn pat.data s.data

/-- Characters of `text` before the first occurrence of `pat`
(the whole of `text` when `pat` does not occur). -/
def takeBeforeFirst (pat : List Char) : List Char → List Char
  | [] => []
  | c :: t => if pat.isPrefixOf (c :: t) then [] else c :: takeBeforeFirst pat t

/-- Python `s.split(pat)[0]`. -/
def pySplitHead (s pat : String) : String := String.mk (takeBeforeFirst pat.data s.data)

/-- Python `s.strip()` on a character list: drop ASCII whitespace from
both ends. -/
def pyStripL (s : List Char) : List Char :=
  ((s.dropWhile Char.isWhitespace).reverse.dropWhile Char.isWhitespace).reverse

/-- Python `s.strip()` for strings. -/
def pyStrip (s : String) : String := String.mk (pyStripL s.data)

/-- Fuel-driven core of Python `str.replace`: scan `text` left to right,
replacing up to `cnt` non-overlapping occurrences of `oldp` by `newp`.
The fuel dominates the length of `text`, so the scan always ends. -/
def pyReplaceAux (oldp newp : List Char) : ℕ → ℕ → List Char → List Char
  | 0, _, t => t
  | _ + 1, _, [] => []
  | fuel + 1, cnt, c :: r =>
    if 0 < cnt ∧ oldp ≠ [] ∧ oldp.isPrefixOf (c :: r) then
      newp ++ pyReplaceAux oldp newp fuel (cnt - 1) ((c :: r).drop oldp.length)
    else
      c :: pyReplaceAux oldp newp fuel cnt r

/-- Python `s.replace(oldp, newp, cnt)` (first `cnt` occurrences). -/
def pyReplaceCount (oldp newp : String) (cnt : ℕ) (s : String) : String :=
  String.mk (pyReplaceAux oldp.data newp.data s.data.length cnt s.data)

/-- Python `s.replace(oldp, newp)` (all occurrences). -/
def pyReplaceAll (oldp newp : String) (s : String) : String :=
  String.mk (pyReplaceAux oldp.data newp.data s.data.length s.data.length s.data)

/-! ### SQL text constants

`temporal_agent_service.py` and `temporal_service.py` build and inspect
these exact SQL fragments. -/

/-- The UTC datetime conversion `datetime(timestamp, 'unixepoch')`. -/
def dtBare : String :=
  "datetime(timestamp, " ++ squoteS ++ "unixepoch" ++ squoteS ++ ")"

/-- The GMT+7 datetime conversion
`datetime(timestamp, 'unixepoch', '+7 hours')`. -/
def dtGmt7 : String :=
  "datetime(timestamp, " ++ squoteS ++ "unixepoch" ++ squoteS ++ ", " ++
    squoteS ++ "+7 hours" ++ squoteS ++ ")"

/-- The projection `datetime(timestamp, 'unixepoch', '+7 hours') as
datetime` that `_validate_sql_query` requires verbatim (the check string
in the source is already lower-case). -/
def dtGmt7AsDatetime : String := dtGmt7 ++ " as datetime"

/-- `default_today_query` of `generate_sql_query` (line 63 of
`temporal_agent_service.py`): select the whole current calendar day in
GMT+7, ascending by time, with no result cap.  `start_timestamp` and
`end_timestamp` are the epoch seconds of the start and end of today. -/
def default_today_query (start_timestamp end_timestamp : ℕ) : String :=
  "SELECT " ++ dtGmt7AsDatetime ++
    ", role, content FROM conversations WHERE timestamp >= " ++
    toString start_timestamp ++ " AND timestamp <= " ++
    toString end_timestamp ++ " ORDER BY timestamp ASC"

/-! ### Temporal Window Synthesizer: `_clean_sql_response`,
`_validate_sql_query`, `generate_sql_query` -/

/-- `_clean_sql_response` (`temporal_agent_service.py`, lines 110-124):
strip the LLM output and unwrap one markdown code fence. -/
def clean_sql_response (response_text : String) : String :=
  let text := pyStrip response_text
  let text :=
    if pyStartsWith text "```sql" then
      pyReplaceCount "```" "" 1 (pyReplaceCount "```sql" "" 1 text)
    else if pyStartsWith text "```" then
      pyReplaceCount "```" "" 2 text
    else text
  pyStrip text

/-- `_validate_sql_query` (`temporal_agent_service.py`, lines 126-161):
lower-case the query, then require in order that it starts with
`select `, contains the GMT+7 datetime projection, contains `role`,
contains `from conversations`, and (unless `allow_content` is set) does
not mention `content` before the first `where`. -/
def validate_sql_query (sql_query : String) (allow_content : Bool) : Bool :=
  let sql_lower := pyLower sql_query
  if !pyStartsWith sql_lower "select " then false
  else if !pyIn dtGmt7AsDatetime sql_lower then false
  else if !pyIn "role" sql_lower then false
  else if !pyIn "from conversations" sql_lower then false
  else
    let has_content :=
      if pyIn "where" sql_lower then pyIn "content" (pySplitHead sql_lower "where")
      else pyIn "content" sql_lower
    if has_content && !allow_content then false else true

/-- `generate_sql_query` (`temporal_agent_service.py`, lines 34-108)
after the date bookkeeping: the single LLM call is modelled by
`llm_response` (`none` when the call raises, in which case the
`except` branch returns the same fixed same-day query, built from the
already-computed `start_timestamp`/`end_timestamp`).  On a successful
call the response is cleaned, validated once with `allow_content :=
true`, and on validation failure discarded in favour of
`default_today_query`.  There is no retry: the function is a single
call-validate-fallback sequence. -/
def generate_sql_query (llm_response : Option String)
    (start_timestamp end_timestamp : ℕ) : String :=
  match llm_response with
  | none => default_today_query start_timestamp end_timestamp
  | some r =>
    let sql_query := clean_sql_response r
    if validate_sql_query sql_query true then sql_query
    else default_today_query start_timestamp end_timestamp

/-! ### Conversation Log: `temporal_service.py`

A row of the `conversations` relation.  `timestamp` is the epoch-seconds
value of the `REAL` column, modelled as a rational; `metadata` is the
optional serialized-mapping column, carried around unparsed (the JSON
decoding is an external library call that decorates rows and plays no
part in the claims below). -/

/-- One appended conversation turn, in the shape stored by
`save_interaction`: autoincrement `id`, `role`, `content`, wall-clock
`timestamp` and optional serialized `metadata`. -/
structure Turn where
  id : ℕ
  role : String
  content : String
  timestamp : ℚ
  metadata : Option String
deriving DecidableEq

/-- Timestamp order on turns, the key of every `ORDER BY timestamp`. -/
def turnLe (a b : Turn) : Prop := a.timestamp ≤ b.timestamp

instance : DecidableRel turnLe :=
  fun a b => inferInstanceAs (Decidable (a.timestamp ≤ b.timestamp))

instance : IsTotal Turn turnLe := ⟨fun a b => le_total a.timestamp b.timestamp⟩

instance : IsTrans Turn turnLe := ⟨fun _ _ _ h h₂ => le_trans h h₂⟩

/-- `get_recent_messages` (`temporal_service.py`, lines 98-140).  `db` is
the full table contents in append order.  The SQL
`ORDER BY timestamp DESC LIMIT count` is modelled as
`db.reverse.take count`: per the data-model invariant, in-process
wall-clock timestamps are monotone with insertion order, so descending
timestamp order is reverse append order.  The Python body then drops the
first (most recent) fetched row whenever more than one row was fetched
(`messages[1:] if len(messages) > 1 else messages`) and reverses the
remainder into chronological order.  Row decoration (ISO datetime
rendering and metadata JSON parsing) touches no field used here and rows
are returned as stored. -/
def get_recent_messages (db : List Turn) (count : ℕ) : List Turn :=
  let messages := db.reverse.take count
  (if 1 < messages.length then messages.drop 1 else messages).reverse

/-- The storage read performed inside `get_recent_messages`: the
`cursor.execute`/`fetchall` pair may raise (`Except.error`), and the
function body contains no exception handler, so a read failure
propagates to the caller; only a successful read reaches the slicing
logic of `get_recent_messages`. -/
def get_recent_messages_call (read : Except Unit (List Turn)) (count : ℕ) :
    Except Unit (List Turn) :=
  match read with
  | Except.error e => Except.error e
  | Except.ok db => Except.ok (get_recent_messages db count)

/-- The timezone rewrite at the top of `execute_sql_query`
(`temporal_service.py`, lines 153-157): every occurrence of
`datetime(timestamp, 'unixepoch')` is replaced by
`datetime(timestamp, 'unixepoch', '+7 hours')`. -/
def rewrite_timezone (query : String) : String := pyReplaceAll dtBare dtGmt7 query

/-- Execution of an SQL string against the store: `Except.error` is a
`sqlite3.Error` raised by `cursor.execute`/`fetchall`, which the `try`
block of `execute_sql_query` converts to an empty result. -/
def run_store {ρ : Type} (exec : String → Except Unit (List ρ)) (sql : String) :
    List ρ :=
  match exec sql with
  | Except.error _ => []
  | Except.ok rows => rows

/-- `execute_sql_query` (`temporal_service.py`, lines 142-191): rewrite
the UTC datetime conversion to the GMT+7 form, execute the rewritten
SQL, and return `[]` on a `sqlite3.Error`.  Per-row decoration (metadata
JSON parse, datetime annotation) is abstracted: rows come back as the
store produced them. -/
def execute_sql_query {ρ : Type} (exec : String → Except Unit (List ρ))
    (query : String) : List ρ :=
  run_store exec (rewrite_timezone query)

/-- `get_all_messages` (`temporal_service.py`, lines 193-231).  The SQL
`ORDER BY timestamp ASC` over the append-ordered table contents is
modelled as a stable ascending sort by timestamp (rows with equal
timestamps keep insertion order, the concrete realization of SQLite's
unspecified tie order). -/
def get_all_messages (db : List Turn) : List Turn := List.insertionSort turnLe db

/-! ### Relevance Filter: `filter_relevant_messages` -/

/-- A candidate message as consumed by the Relevance Filter: only its
`content` (vectorized text) and `timestamp` (sort key) matter. -/
structure Message where
  content : String
  timestamp : ℚ
deriving DecidableEq

/-- A message annotated with its `relevance_score`, as built by the
filter loop (`msg_copy['relevance_score'] = float(score)`). -/
structure ScoredMessage where
  content : String
  timestamp : ℚ
  relevance_score : ℚ
deriving DecidableEq

/-- Timestamp order on scored messages, the key of
`relevant_messages.sort(key=lambda x: x.get('timestamp', 0))`. -/
def scoredLe (a b : ScoredMessage) : Prop := a.timestamp ≤ b.timestamp

instance : DecidableRel scoredLe :=
  fun a b => inferInstanceAs (Decidable (a.timestamp ≤ b.timestamp))

instance : IsTotal ScoredMessage scoredLe :=
  ⟨fun a b => le_total a.timestamp b.timestamp⟩

instance : IsTrans ScoredMessage scoredLe := ⟨fun _ _ _ h h₂ => le_trans h h₂⟩

/-- The score literal `0.2` of `filter_relevant_messages` (line 270),
built as an explicit rational so that concrete runs evaluate inside the
kernel; `relevance_cutoff_eq` below checks it equals `0.2`. -/
def relevance_cutoff : ℚ := ⟨1, 5, by norm_num, by norm_num⟩

/-- `filter_relevant_messages` (`temporal_service.py`, lines 233-282).
The TF-IDF/cosine computation is the external sklearn call; its output —
one similarity score per message — is the `similarities` argument
(`zip(similarities, messages)` truncates to the shorter list exactly as
`List.zip` does; the `except` branch for a vectorizer failure returns
`[]` and is the case where no score list exists at all).  The loop keeps
the messages whose score is strictly below `0.2`, annotates each kept
message with its score, and finally sorts by timestamp ascending
(Python's `list.sort` is stable, as is `List.insertionSort`). -/
def filter_relevant_messages (prompt : String) (similarities : List ℚ)
    (messages : List Message) : List ScoredMessage :=
  if messages = [] ∨ prompt = "" then []
  else
    let contents := messages.map Message.content
    if contents = [] then []
    else
      let relevant_messages :=
        ((similarities.zip messages).filter fun p =>
            decide (p.1 < relevance_cutoff)).map
          fun p => ⟨p.2.content, p.2.timestamp, p.1⟩
      List.insertionSort scoredLe relevant_messages

/-! ### Semantic Retriever: `memory_service.py` -/

/-- One raw nearest-neighbour hit as returned by the Chroma index:
document text, serialized metadata, id, and the reported cosine distance
(`none` when the index reports no distance for the hit). -/
structure RawHit where
  text : String
  metadata : String
  id : String
  distance : Option ℚ
deriving DecidableEq

/-- One formatted result of `query_similar_documents`: the raw fields
plus the computed `similarity`. -/
structure SimHit where
  text : String
  metadata : String
  id : String
  similarity : ℚ
  distance : Option ℚ
deriving DecidableEq

/-- The body of the result-formatting loop of `query_similar_documents`
(`memory_service.py`, lines 122-138): the hit's distance is converted to
a similarity (`1 - distance`, `0` when no distance was reported) and the
hit is kept only when `similarity >= threshold`. -/
def format_hit (threshold : ℚ) (h : RawHit) : Option SimHit :=
  let similarity : ℚ := match h.distance with | some d => 1 - d | none => 0
  if threshold ≤ similarity then
    some ⟨h.text, h.metadata, h.id, similarity, h.distance⟩
  else none

/-- `query_similar_documents` (`memory_service.py`, lines 95-143).  The
vector store is the external `store` capability: called with the query
text and `n_results`, it returns its hits or raises (`Except.error`),
and the surrounding `try` turns any failure into `[]`.  Each returned
hit passes through `format_hit`, in index order. -/
def query_similar_documents
    (store : String → ℕ → Except Unit (List RawHit))
    (query_text : String) (n_results : ℕ) (threshold : ℚ) : List SimHit :=
  match store query_text n_results with
  | Except.error _ => []
  | Except.ok hits => hits.filterMap (format_hit threshold)

/-! ### Recency Reconciler: `important_till_now`
(`memorize_agent_service.py`) -/

/-- One retrieved semantic match as consumed by `important_till_now`:
its text and its parsed creation instant in epoch seconds (`none` when
the metadata holds no datetime/timestamp or parsing raised, the
`except (ValueError, TypeError): pass` path). -/
structure MemDoc where
  text : String
  created_at : Option ℤ
deriving DecidableEq

/-- A match annotated with its age in whole days, mirroring the
`documents_with_age` entries (`days_old` is `none` for unknown age). -/
structure AgedDoc where
  text : String
  days_old : Option ℤ
deriving DecidableEq

/-- Age order with unknown age as infinitely old: the sort key
`x["days_old"] if x["days_old"] is not None else float('inf')` of the
fallback branch. -/
def ageLe (a b : Option ℤ) : Bool :=
  match a, b with
  | _, none => true
  | none, some _ => false
  | some x, some y => decide (x ≤ y)

/-- Age order on annotated documents. -/
def agedLe (a b : AgedDoc) : Prop := ageLe a.days_old b.days_old = true

instance : DecidableRel agedLe :=
  fun a b => inferInstanceAs (Decidable (_ = true))

instance : IsTotal AgedDoc agedLe := by
  constructor
  intro a b
  rcases a with ⟨_, _ | x⟩ <;> rcases b with ⟨_, _ | y⟩ <;>
    simp only [agedLe, ageLe] <;> try simp
  rcases le_total x y with h | h
  · exact Or.inl (by simpa using h)
  · exact Or.inr (by simpa using h)

instance : IsTrans AgedDoc agedLe := by
  constructor
  intro a b c hab hbc
  rcases a with ⟨_, _ | x⟩ <;> rcases b with ⟨_, _ | y⟩ <;>
    rcases c with ⟨_, _ | z⟩ <;>
    simp only [agedLe, ageLe] at * <;> try simp at *
  omega

/-- The age computation of `important_till_now` (lines 150-173): for a
match with a parsed creation instant, `days_old` is the whole-day part
of `current_time - doc_datetime` (Python `timedelta.days` floors), and
`none` otherwise. -/
def with_age (current_time : ℤ) (docs : List MemDoc) : List AgedDoc :=
  docs.map fun d =>
    ⟨d.text, d.created_at.map fun t => Int.fdiv (current_time - t) 86400⟩

/-- First document of minimal age (unknown age = infinitely old): the
element `sorted(documents_with_age, key=...)[0]` selects, since Python's
sort is stable.  Used to state the fallback policy; the theorem below
proves it is what `important_till_now` returns. -/
def youngest : List AgedDoc → Option AgedDoc
  | [] => none
  | h :: t =>
    match youngest t with
    | none => some h
    | some b => if !ageLe h.days_old b.days_old then some b else some h

/-- `important_till_now` (`memorize_agent_service.py`, lines 133-197).
Empty input returns `""` at once.  Otherwise each match is annotated
with its age and the importance judgement is delegated to the model:
`delegate = some t` models a successful `generate_content` call (whose
stripped text is returned), `none` models the call raising.  On failure
the fallback sorts the annotated matches by age (unknown age last) and
returns the text of the first, or `""` if there are none — the function
always produces a definite string and never propagates the failure. -/
def important_till_now (retrieved_documents : List MemDoc)
    (current_time : ℤ) (delegate : Option String) : String :=
  if retrieved_documents = [] then ""
  else
    let documents_with_age := with_age current_time retrieved_documents
    match delegate with
    | some t => pyStrip t
    | none =>
      if documents_with_age = [] then ""
      else
        match List.insertionSort agedLe documents_with_age with
        | [] => ""
        | d :: _ => d.text

/-! ### Extraction Pipeline: `save_memory_in_background`
(`chat_router.py`) -/

/-- One turn of the Conversation Log as appended by `save_interaction`,
reduced to the fields the Save Stage writes. -/
structure LogTurn where
  role : String
  content : String
deriving DecidableEq

/-- The two memory stores touched by the Save Stage: the Conversation
Log (append order) and the Semantic Store (texts of stored facts, in
write order). -/
structure MemoryState where
  log : List LogTurn
  store : List String
deriving DecidableEq

/-- The per-fact write loop of `save_memory_in_background` (lines
178-188): each extracted fact is written inside its own
`try`/`except`, so a failed write (modelled by `write_ok i = false` for
the fact at index `i`) is logged and skipped while the loop continues
with the remaining facts. -/
def save_facts_loop (write_ok : ℕ → Bool) : List (ℕ × String) → List String → List String
  | [], store => store
  | (i, f) :: rest, store =>
    save_facts_loop write_ok rest (if write_ok i then store ++ [f] else store)

/-- `save_memory_in_background` (`chat_router.py`, lines 156-191).
Step 1 appends the assistant turn to the Conversation Log; step 2, the
external decomposition call, produced `facts` (the texts of
`extract_from_conversation`, whose metadata dictionaries are
time-dependent decoration); step 3 writes each fact to the Semantic
Store under an isolating per-fact exception handler. -/
def save_memory_in_background (prompt response : String) (facts : List String)
    (write_ok : ℕ → Bool) (st : MemoryState) : MemoryState :=
  let st₁ : MemoryState := { st with log := st.log ++ [⟨"assistant", response⟩] }
  { st₁ with store := save_facts_loop write_ok facts.enum st₁.store }

/-! ### Concrete values used by counterexamples and witnesses -/

/-- First turn of the end-to-end scenario (user, earlier timestamp). -/
def turnXinChao : Turn := ⟨1, "user", "Xin chao", 1, none⟩

/-- Second turn of the end-to-end scenario (assistant, later
timestamp). -/
def turnChaoBan : Turn := ⟨2, "assistant", "Chao ban", 2, none⟩

/-- A turn inserted first but carrying the later timestamp. -/
def turnLateStamp : Turn := ⟨1, "user", "first insert", 5, none⟩

/-- A turn inserted second but carrying the earlier timestamp. -/
def turnEarlyStamp : Turn := ⟨2, "assistant", "second insert", 3, none⟩

/-- A candidate message for the Relevance Filter counterexample. -/
def msgHello : Message := ⟨"hello there", 1⟩

/-- A query with two occurrences of the bare UTC datetime conversion. -/
def bareTwiceQuery : String :=
  "SELECT " ++ dtBare ++ " as datetime, role, content FROM conversations WHERE " ++
    dtBare ++ " >= 0 ORDER BY timestamp DESC LIMIT 10"

/-- The same query with both occurrences in GMT+7 form. -/
def gmt7TwiceQuery : String :=
  "SELECT " ++ dtGmt7 ++ " as datetime, role, content FROM conversations WHERE " ++
    dtGmt7 ++ " >= 0 ORDER BY timestamp DESC LIMIT 10"

/-- The distance `1/10` reported by the one-hit witness store, built as
an explicit rational. -/
def distTenth : ℚ := ⟨1, 10, by norm_num, by norm_num⟩

/-- A semantic store holding one document at distance `1/10`. -/
def storeOneHit : String → ℕ → Except Unit (List RawHit) :=
  fun _ _ => Except.ok [⟨"fact text", "meta", "id-1", some distTenth⟩]

/-- The formatted hit `query_similar_documents` builds from
`storeOneHit` at threshold `1/2`. -/
def simHitOne : SimHit :=
  ⟨"fact text", "meta", "id-1", 1 - distTenth, some distTenth⟩

/-- The similarity floor `1/2` used in the Semantic Retriever witness,
built as an explicit rational for kernel evaluation. -/
def halfThreshold : ℚ := ⟨1, 2, by norm_num, by norm_num⟩

/-- Two retrieved matches: `docOld` was created at epoch second 0. -/
def docOld : MemDoc := ⟨"old fact", some 0⟩

/-- Second match, created two days later than `docOld`. -/
def docNew : MemDoc := ⟨"new fact", some 172800⟩

/-! ## Theorems -/

/-! ### Claims C1 and C2: validation of synthesized predicates -/

/-- C1: a synthesized temporal predicate that fails validation (for
example `SELECT content FROM conversations`, which lacks the required
datetime conversion) is never executed: `generate_sql_query` discards it
and returns the fixed same-day fallback query, with no retry of the
synthesis step — the model is consulted once, the result validated once,
and on failure the fallback is returned directly. -/
theorem generate_sql_query_validation_fallback :
    (∀ (r : String) (s e : ℕ),
        validate_sql_query (clean_sql_response r) true = false →
        generate_sql_query (some r) s e = default_today_query s e)
    ∧ validate_sql_query
        (clean_sql_response "SELECT content FROM conversations") true = false
    ∧ generate_sql_query (some "SELECT content FROM conversations") 0 86399
        = default_today_query 0 86399 := by
  refine ⟨?_, by decide, by decide⟩
  intro r s e h
  simp [generate_sql_query, h]

/-- Witness for C1: the concrete rejected predicate of the end-to-end
scenario falls back to the fixed same-day query. -/
theorem generate_sql_query_validation_fallback_witness :
    generate_sql_query (some "SELECT content FROM conversations") 7 9
      = default_today_query 7 9 :=
  generate_sql_query_validation_fallback.1 "SELECT content FROM conversations" 7 9
    (by decide)

/-- C2 counterexample: the validator accepts the uncapped same-day query
`default_today_query`, which contains no `LIMIT` clause, so an accepted
predicate need not include an explicit result cap. -/
theorem validate_sql_query_accepts_uncapped_query :
    validate_sql_query (default_today_query 100 200) true = true
    ∧ pyIn "limit" (pyLower (default_today_query 100 200)) = false := by
  exact ⟨by decide, by decide⟩

/-- C2 amended: every query accepted by `_validate_sql_query` starts with
`select `, contains the GMT+7 datetime projection, mentions `role` and
mentions `from conversations`; the validator imposes no result-cap
requirement, and in particular accepts the `LIMIT`-free
`default_today_query`. -/
theorem validate_sql_query_checks :
    (∀ (q : String) (ac : Bool), validate_sql_query q ac = true →
        pyStartsWith (pyLower q) "select " = true
        ∧ pyIn dtGmt7AsDatetime (pyLower q) = true
        ∧ pyIn "role" (pyLower q) = true
        ∧ pyIn "from conversations" (pyLower q) = true)
    ∧ (validate_sql_query (default_today_query 5 9) true = true
        ∧ pyIn "limit" (pyLower (default_today_query 5 9)) = false) := by
  refine ⟨?_, by decide, by decide⟩
  intro q ac h
  simp only [validate_sql_query] at h
  cases h1 : pyStartsWith (pyLower q) "select " <;> rw [h1] at h
  · simp at h
  cases h2 : pyIn dtGmt7AsDatetime (pyLower q) <;> rw [h2] at h
  · simp at h
  cases h3 : pyIn "role" (pyLower q) <;> rw [h3] at h
  · simp at h
  cases h4 : pyIn "from conversations" (pyLower q) <;> rw [h4] at h
  · simp at h
  exact ⟨rfl, rfl, rfl, rfl⟩

/-- Witness for C2 amended: the accepted uncapped query satisfies the
four checks the validator actually performs. -/
theorem validate_sql_query_checks_witness :
    pyStartsWith (pyLower (default_today_query 5 9)) "select " = true
    ∧ pyIn dtGmt7AsDatetime (pyLower (default_today_query 5 9)) = true
    ∧ pyIn "role" (pyLower (default_today_query 5 9)) = true
    ∧ pyIn "from conversations" (pyLower (default_today_query 5 9)) = true :=
  validate_sql_query_checks.1 (default_today_query 5 9) true (by decide)

/-! ### Claim C4: `get_recent_messages` -/

/-- C4 counterexample: after appending two turns, `recent(2)` returns a
single turn — the most recent one is dropped — not the claimed
`min(2, 2) = 2` turns. -/
theorem get_recent_messages_drops_newest :
    get_recent_messages [turnXinChao, turnChaoBan] 2 = [turnXinChao]
    ∧ min 2 ([turnXinChao, turnChaoBan] : List Turn).length = 2
    ∧ (get_recent_messages [turnXinChao, turnChaoBan] 2).length
        ≠ min 2 ([turnXinChao, turnChaoBan] : List Turn).length := by
  refine ⟨by decide, by decide, by decide⟩

/-- C4 amended: `recent(n)` takes the last `min(n, total)` appended
turns, removes the single most recent turn whenever that window holds at
least two, and returns the rest in chronological order; it never returns
more than `n` items. -/
theorem get_recent_messages_window (db : List Turn) (n : ℕ) :
    get_recent_messages db n
      = (if 1 < min n db.length
          then (db.drop (db.length - n)).dropLast
          else db.drop (db.length - n))
    ∧ (get_recent_messages db n).length ≤ n := by
  have hw : db.reverse.take n = (db.drop (db.length - n)).reverse :=
    List.take_reverse
  have hlen : (db.drop (db.length - n)).length = min n db.length := by
    rw [List.length_drop]; omega
  have heq : get_recent_messages db n
      = (if 1 < min n db.length
          then (db.drop (db.length - n)).dropLast
          else db.drop (db.length - n)) := by
    unfold get_recent_messages
    rw [hw]
    simp only [List.length_reverse, hlen]
    by_cases hc : 1 < min n db.length
    · rw [if_pos hc, if_pos hc, List.drop_one,
        List.tail_reverse_eq_reverse_dropLast, List.reverse_reverse]
    · rw [if_neg hc, if_neg hc, List.reverse_reverse]
  refine ⟨heq, ?_⟩
  rw [heq]
  by_cases hc : 1 < min n db.length
  · rw [if_pos hc, List.length_dropLast, hlen]; omega
  · rw [if_neg hc, hlen]; omega

/-! ### Claim C9: `get_all_messages` -/

/-- C9 counterexample: two turns appended with decreasing timestamps are
returned in timestamp order, not append order — `all()` sorts by the
timestamp value, so append order is recovered only when timestamps agree
with insertion order. -/
theorem get_all_messages_not_append_order :
    get_all_messages [turnLateStamp, turnEarlyStamp]
      = [turnEarlyStamp, turnLateStamp]
    ∧ get_all_messages [turnLateStamp, turnEarlyStamp]
        ≠ [turnLateStamp, turnEarlyStamp] := by
  refine ⟨by decide, by decide⟩

/-- C9 amended: `all()` returns all `k` appended turns (a permutation of
the log of the same length), sorted by timestamp ascending with equal
timestamps kept in insertion order; when the appended timestamps are
already non-decreasing this is exactly append order. -/
theorem get_all_messages_sorted_by_timestamp :
    (∀ db : List Turn,
        (get_all_messages db).Perm db
        ∧ (get_all_messages db).Sorted turnLe
        ∧ (get_all_messages db).length = db.length)
    ∧ (∀ db : List Turn, db.Sorted turnLe → get_all_messages db = db) := by
  constructor
  · intro db
    exact ⟨List.perm_insertionSort turnLe db,
      List.sorted_insertionSort turnLe db,
      List.length_insertionSort turnLe db⟩
  · intro db h
    exact h.insertionSort_eq

/-- Witness for C9 amended: a log whose timestamps already ascend is
returned unchanged, timestamp collisions included. -/
theorem get_all_messages_sorted_by_timestamp_witness :
    get_all_messages [turnEarlyStamp, turnLateStamp]
      = [turnEarlyStamp, turnLateStamp] :=
  get_all_messages_sorted_by_timestamp.2 [turnEarlyStamp, turnLateStamp]
    (by decide)

/-! ### Claim C3: `filter_relevant_messages` -/

/-- The score literal of the filter equals `0.2`. -/
theorem relevance_cutoff_eq : relevance_cutoff = 0.2 := by
  rw [relevance_cutoff, Rat.mk'_eq_divInt, Rat.divInt_eq_div]; norm_num

/-- C3 counterexample: a candidate whose similarity is `0` — strictly
below the `0.2` floor — is returned by the filter (with its score
annotated), so the filter does not return the candidates meeting or
exceeding the floor: it keeps exactly the ones strictly below it. -/
theorem filter_relevant_messages_keeps_low_scores :
    filter_relevant_messages "weather" [0] [msgHello]
      = [⟨"hello there", 1, 0⟩]
    ∧ (0 : ℚ) < relevance_cutoff := by
  refine ⟨by decide, by decide⟩

/-- C3 amended: the filter returns exactly the candidates whose computed
similarity is strictly below the `0.2` cutoff, each annotated with its
score, ordered by timestamp ascending (stably), not by similarity; a
returned turn always has similarity strictly below the cutoff. -/
theorem filter_relevant_messages_behavior :
    (∀ (p : String) (sims : List ℚ) (msgs : List Message),
        ∀ m ∈ filter_relevant_messages p sims msgs,
          m.relevance_score < relevance_cutoff)
    ∧ (∀ (p : String) (sims : List ℚ) (msgs : List Message),
        (filter_relevant_messages p sims msgs).Sorted scoredLe)
    ∧ (∀ (p : String) (sims : List ℚ) (msgs : List Message),
        p ≠ "" → msgs ≠ [] →
        (filter_relevant_messages p sims msgs).Perm
          (((sims.zip msgs).filter fun q => decide (q.1 < relevance_cutoff)).map
            fun q => ⟨q.2.content, q.2.timestamp, q.1⟩))
    ∧ relevance_cutoff = 0.2 := by
  refine ⟨?_, ?_, ?_, relevance_cutoff_eq⟩
  · intro p sims msgs m hm
    simp only [filter_relevant_messages] at hm
    split_ifs at hm with h1 h2
    · exact absurd hm (List.not_mem_nil m)
    · exact absurd hm (List.not_mem_nil m)
    · rw [List.mem_insertionSort] at hm
      obtain ⟨q, hq, rfl⟩ := List.mem_map.mp hm
      exact of_decide_eq_true (List.mem_filter.mp hq).2
  · intro p sims msgs
    simp only [filter_relevant_messages]
    split_ifs with h1 h2
    · exact List.sorted_nil
    · exact List.sorted_nil
    · exact List.sorted_insertionSort scoredLe _
  · intro p sims msgs hp hm
    simp only [filter_relevant_messages]
    rw [if_neg (by simp [hp, hm]), if_neg (by simp [List.map_eq_nil_iff, hm])]
    exact List.perm_insertionSort scoredLe _

/-- Witness for C3 amended: the turn returned in the counterexample run
indeed carries a score strictly below the cutoff. -/
theorem filter_relevant_messages_behavior_witness :
    (⟨"hello there", 1, 0⟩ : ScoredMessage).relevance_score < relevance_cutoff :=
  filter_relevant_messages_behavior.1 "weather" [0] [msgHello]
    ⟨"hello there", 1, 0⟩ (by decide)

/-! ### Claims C8 and C10: `execute_sql_query` and the storage-error
paths -/

/-- A scan that never finds `oldp` copies its input unchanged. -/
theorem pyReplaceAux_of_not_occurs (oldp newp : List Char) :
    ∀ (fuel cnt : ℕ) (t : List Char), occursIn oldp t = false →
      pyReplaceAux oldp newp fuel cnt t = t := by
  intro fuel
  induction fuel with
  | zero => intro cnt t _; rfl
  | succ f ih =>
    intro cnt t hocc
    cases t with
    | nil => rfl
    | cons c r =>
      have hsplit : oldp.isPrefixOf (c :: r) = false ∧ occursIn oldp r = false := by
        simpa only [occursIn, Bool.or_eq_false_iff] using hocc
      unfold pyReplaceAux
      rw [if_neg, ih cnt r hsplit.2]
      rintro ⟨-, -, hp⟩
      exact absurd hp (by simp [hsplit.1])

/-- C8 counterexample: a failing storage read inside
`get_recent_messages` is not converted into an empty result — the body
has no exception handler, so the failure propagates to the caller
instead of yielding `[]`. -/
theorem get_recent_messages_error_not_empty :
    get_recent_messages_call (Except.error ()) 4 = Except.error ()
    ∧ get_recent_messages_call (Except.error ()) 4 ≠ Except.ok ([] : List Turn) :=
  ⟨rfl, fun h => Except.noConfusion h⟩

/-- C8 amended: `execute_sql_query` swallows a failing storage read and
returns an empty list (and returns the fetched rows on success), but
`get_recent_messages` propagates a failing read to its caller. -/
theorem read_failure_semantics :
    (∀ q : String,
        execute_sql_query (ρ := Turn) (fun _ => Except.error ()) q = [])
    ∧ (∀ (exec : String → Except Unit (List Turn)) (q : String),
        exec (rewrite_timezone q) = Except.error () →
        execute_sql_query exec q = [])
    ∧ (∀ (exec : String → Except Unit (List Turn)) (q : String)
        (rows : List Turn),
        exec (rewrite_timezone q) = Except.ok rows →
        execute_sql_query exec q = rows)
    ∧ (∀ n : ℕ, get_recent_messages_call (Except.error ()) n = Except.error ()) := by
  refine ⟨fun q => rfl, ?_, ?_, fun n => rfl⟩
  · intro exec q h
    unfold execute_sql_query run_store
    rw [h]
  · intro exec q rows h
    unfold execute_sql_query run_store
    rw [h]

/-- Witness for C8 amended: a store that always fails yields the empty
list through `execute_sql_query`. -/
theorem read_failure_semantics_witness :
    execute_sql_query (ρ := Turn) (fun _ => Except.error ())
      "SELECT role FROM conversations" = [] :=
  read_failure_semantics.2.1 (fun _ => Except.error ())
    "SELECT role FROM conversations" rfl

set_option maxRecDepth 20000 in
/-- C10: before execution, `execute_sql_query` rewrites every occurrence
of the bare UTC conversion `datetime(timestamp, 'unixepoch')` into the
GMT+7 form, and the store executes exactly this rewritten SQL: a query
with two bare occurrences has both rewritten, and a query with no bare
occurrence — such as the validated predicates, which already carry the
`'+7 hours'` argument — is passed through unchanged. -/
theorem execute_sql_query_timezone_rewrite :
    (∀ (exec : String → Except Unit (List Turn)) (q : String),
        execute_sql_query exec q = run_store exec (rewrite_timezone q))
    ∧ (∀ q : String, pyIn dtBare q = false → rewrite_timezone q = q)
    ∧ rewrite_timezone bareTwiceQuery = gmt7TwiceQuery
    ∧ rewrite_timezone (default_today_query 1 2) = default_today_query 1 2 := by
  refine ⟨fun exec q => rfl, ?_, by decide, by decide⟩
  intro q h
  unfold rewrite_timezone pyReplaceAll
  rw [pyReplaceAux_of_not_occurs dtBare.data dtGmt7.data _ _ _ h]

set_option maxRecDepth 20000 in
/-- Witness for C10: a query already in GMT+7 form reaches the store
letter for letter. -/
theorem execute_sql_query_timezone_rewrite_witness :
    rewrite_timezone (default_today_query 3 4) = default_today_query 3 4 :=
  execute_sql_query_timezone_rewrite.2.1 (default_today_query 3 4) (by decide)

/-! ### Claim C5: `query_similar_documents` -/

/-- A formatted hit meets the floor, and its similarity is `1 - d` when
the raw hit reported distance `d`. -/
theorem format_hit_spec (t : ℚ) (a : RawHit) (h : SimHit)
    (hfa : format_hit t a = some h) :
    t ≤ h.similarity ∧ h.distance = a.distance
    ∧ (∀ d : ℚ, a.distance = some d → h.similarity = 1 - d) := by
  simp only [format_hit] at hfa
  split_ifs at hfa with hle
  · cases hfa
    refine ⟨hle, rfl, ?_⟩
    intro d hd
    rw [hd]

/-- C5: the Semantic Retriever never returns a document whose computed
similarity (`1 - distance`, `0` when the index reports none) is below
the floor, never returns more documents than the store produced — hence
at most `n_results` under the store's cap contract — and returns an
empty list, rather than an error, when the store raises or is empty. -/
theorem query_similar_documents_floor_and_cap :
    (∀ (store : String → ℕ → Except Unit (List RawHit)) (q : String)
        (k : ℕ) (t : ℚ), ∀ h ∈ query_similar_documents store q k t,
          t ≤ h.similarity
          ∧ (∀ d : ℚ, h.distance = some d → h.similarity = 1 - d))
    ∧ (∀ (store : String → ℕ → Except Unit (List RawHit)) (q : String)
        (k : ℕ) (t : ℚ),
        (∀ hits, store q k = Except.ok hits → hits.length ≤ k) →
        (query_similar_documents store q k t).length ≤ k)
    ∧ (∀ (q : String) (k : ℕ) (t : ℚ),
        query_similar_documents (fun _ _ => Except.error ()) q k t = [])
    ∧ (∀ (q : String) (k : ℕ) (t : ℚ),
        query_similar_documents (fun _ _ => Except.ok []) q k t = []) := by
  refine ⟨?_, ?_, fun q k t => rfl, fun q k t => rfl⟩
  · intro store q k t h hm
    unfold query_similar_documents at hm
    cases hs : store q k with
    | error e => rw [hs] at hm; exact absurd hm (List.not_mem_nil h)
    | ok hits =>
      rw [hs] at hm
      obtain ⟨a, _, hfa⟩ := List.mem_filterMap.mp hm
      obtain ⟨h1, h2, h3⟩ := format_hit_spec t a h hfa
      exact ⟨h1, fun d hd => h3 d (h2 ▸ hd)⟩
  · intro store q k t hcap
    unfold query_similar_documents
    cases hs : store q k with
    | error e => simp
    | ok hits =>
      exact le_trans (List.length_filterMap_le _ _) (hcap hits hs)

/-- The explicit rationals of the witness carry their intended values. -/
theorem distTenth_halfThreshold_eq : distTenth = 1/10 ∧ halfThreshold = 1/2 := by
  constructor
  · rw [distTenth, Rat.mk'_eq_divInt, Rat.divInt_eq_div]; norm_num
  · rw [halfThreshold, Rat.mk'_eq_divInt, Rat.divInt_eq_div]; norm_num

/-- `query_similar_documents` keeps the single `storeOneHit` hit at
floor `1/2`. -/
theorem query_similar_documents_storeOneHit :
    query_similar_documents storeOneHit "question" 5 halfThreshold = [simHitOne] := by
  have hfmt : format_hit halfThreshold ⟨"fact text", "meta", "id-1", some distTenth⟩
      = some simHitOne := by
    simp only [format_hit]
    rw [if_pos]
    · rfl
    · rw [distTenth_halfThreshold_eq.1, distTenth_halfThreshold_eq.2]; norm_num
  simp only [query_similar_documents, storeOneHit, List.filterMap_cons, hfmt,
    List.filterMap_nil]

/-- Witness for C5: a store returning one hit at distance `1/10` with
floor `1/2` yields a kept hit meeting the floor, within the cap. -/
theorem query_similar_documents_floor_and_cap_witness :
    (halfThreshold ≤ simHitOne.similarity
      ∧ ∀ d : ℚ, simHitOne.distance = some d → simHitOne.similarity = 1 - d)
    ∧ (query_similar_documents storeOneHit "question" 5 halfThreshold).length ≤ 5 :=
  ⟨query_similar_documents_floor_and_cap.1 storeOneHit "question" 5 halfThreshold
      simHitOne (by rw [query_similar_documents_storeOneHit]; exact List.mem_singleton.mpr rfl),
    query_similar_documents_floor_and_cap.2.1 storeOneHit "question" 5 halfThreshold
      (by intro hits hs; cases hs; decide)⟩

/-! ### Claim C6: `important_till_now` -/

/-- The age order is reflexive. -/
theorem ageLe_refl (x : Option ℤ) : ageLe x x = true := by
  cases x <;> simp [ageLe]

/-- `youngest` never reports `none` on a non-empty list. -/
theorem youngest_ne_none (a : AgedDoc) (t : List AgedDoc) :
    youngest (a :: t) ≠ none := by
  simp only [youngest]
  cases youngest t with
  | none => simp
  | some b =>
    dsimp only
    split <;> simp

/-- The head of the stable age sort is the first minimal-age document. -/
theorem head?_insertionSort_agedLe :
    ∀ l : List AgedDoc, (List.insertionSort agedLe l).head? = youngest l := by
  intro l
  induction l with
  | nil => rfl
  | cons a t ih =>
    show (List.orderedInsert agedLe a (List.insertionSort agedLe t)).head?
      = youngest (a :: t)
    cases hs : List.insertionSort agedLe t with
    | nil =>
      have ht : t = [] := by
        have hp := List.perm_insertionSort agedLe t
        rw [hs] at hp
        exact (hp.symm.eq_nil)
      subst ht
      rfl
    | cons b rest =>
      have hyt : youngest t = some b := by rw [← ih, hs]; rfl
      simp only [youngest, hyt, List.orderedInsert]
      by_cases hab : agedLe a b
      · rw [if_pos hab]
        have hv : ageLe a.days_old b.days_old = true := hab
        simp [hv]
      · rw [if_neg hab]
        have hv : ageLe a.days_old b.days_old = false :=
          Bool.eq_false_iff.mpr hab
        simp [hv]

/-- `youngest` returns a member of minimal age. -/
theorem youngest_min :
    ∀ (l : List AgedDoc) (d : AgedDoc), youngest l = some d →
      d ∈ l ∧ ∀ d' ∈ l, agedLe d d' := by
  intro l
  induction l with
  | nil => intro d h; cases h
  | cons a t ih =>
    intro d h
    simp only [youngest] at h
    cases hy : youngest t with
    | none =>
      rw [hy] at h
      cases h
      have ht : t = [] := by
        cases t with
        | nil => rfl
        | cons b r => exact absurd hy (youngest_ne_none b r)
      subst ht
      refine ⟨List.mem_singleton.mpr rfl, ?_⟩
      intro d' hd'
      rw [List.mem_singleton.mp hd']
      exact ageLe_refl _
    | some b =>
      rw [hy] at h
      dsimp only at h
      obtain ⟨hbmem, hbmin⟩ := ih b hy
      by_cases hcond : ageLe a.days_old b.days_old = true
      · simp only [hcond, Bool.not_true] at h
        rw [if_neg (by simp)] at h
        cases h
        refine ⟨List.mem_cons_self a t, ?_⟩
        intro d' hd'
        rcases List.mem_cons.mp hd' with hda | hdt
        · rw [hda]; exact ageLe_refl _
        · exact IsTrans.trans (r := agedLe) a b d' hcond (hbmin d' hdt)
      · have hv : ageLe a.days_old b.days_old = false :=
          Bool.eq_false_iff.mpr hcond
        simp only [hv, Bool.not_false] at h
        rw [if_pos trivial] at h
        have hbd : b = d := by injection h
        subst hbd
        refine ⟨List.mem_cons_of_mem a hbmem, ?_⟩
        intro d' hd'
        rcases List.mem_cons.mp hd' with hda | hdt
        · rw [hda]
          rcases IsTotal.total (r := agedLe) a b with hab | hba
          · exact absurd hab hcond
          · exact hba
        · exact hbmin d' hdt

/-- C6: on an empty retrieval `important_till_now` returns `""`; on a
successful delegate call it returns the delegate's stripped text; and
when the delegate call fails on a non-empty retrieval, it returns the
raw text of the first match of smallest known age in whole days
(matches with missing or unparseable creation instants rank as
infinitely old).  Every path produces a definite string: the failure
never propagates. -/
theorem important_till_now_fallback :
    (∀ (docs : List MemDoc) (now : ℤ), docs ≠ [] →
        important_till_now docs now none
          = ((youngest (with_age now docs)).map AgedDoc.text).getD "")
    ∧ (∀ (l : List AgedDoc) (d : AgedDoc), youngest l = some d →
        d ∈ l ∧ ∀ d' ∈ l, agedLe d d')
    ∧ (∀ (docs : List MemDoc) (now : ℤ) (t : String), docs ≠ [] →
        important_till_now docs now (some t) = pyStrip t)
    ∧ (∀ (now : ℤ) (delegate : Option String),
        important_till_now [] now delegate = "") := by
  refine ⟨?_, youngest_min, ?_, ?_⟩
  · intro docs now hne
    unfold important_till_now
    rw [if_neg hne]
    dsimp only
    have hwa : with_age now docs ≠ [] := by
      cases docs with
      | nil => exact absurd rfl hne
      | cons d r => simp [with_age]
    rw [if_neg hwa]
    have hhead := head?_insertionSort_agedLe (with_age now docs)
    cases hs : List.insertionSort agedLe (with_age now docs) with
    | nil =>
      rw [hs] at hhead
      have := (List.perm_insertionSort agedLe (with_age now docs))
      rw [hs] at this
      exact absurd this.symm.eq_nil hwa
    | cons d rest =>
      rw [hs] at hhead
      rw [← hhead]
      rfl
  · intro docs now t hne
    unfold important_till_now
    rw [if_neg hne]
  · intro now delegate
    unfold important_till_now
    rw [if_pos rfl]

/-- Witness for C6: with the delegate failing, the match created two
days later (age 1 day versus 3 days at the given instant) is selected
and its raw text returned. -/
theorem important_till_now_fallback_witness :
    important_till_now [docOld, docNew] 259200 none = "new fact" :=
  (important_till_now_fallback.1 [docOld, docNew] 259200 (by decide)).trans
    (by decide)

/-! ### Claim C7: `save_memory_in_background` -/

/-- The per-fact loop appends exactly the facts whose write succeeded,
in order, to the store it was given. -/
theorem save_facts_loop_eq (write_ok : ℕ → Bool) :
    ∀ (pairs : List (ℕ × String)) (store : List String),
      save_facts_loop write_ok pairs store
        = store ++ (pairs.filter fun p => write_ok p.1).map Prod.snd := by
  intro pairs
  induction pairs with
  | nil => intro store; simp [save_facts_loop]
  | cons p rest ih =>
    intro store
    obtain ⟨i, f⟩ := p
    simp only [save_facts_loop]
    cases h : write_ok i
    · rw [if_neg (by simp [h]), ih, List.filter_cons]
      simp [h]
    · rw [if_pos (by simp [h]), ih, List.filter_cons]
      simp [h]

/-- C7: the Save Stage first appends the assistant turn to the
Conversation Log and then writes each extracted fact under its own
exception handler: the final store holds exactly the prior contents
followed by the facts whose writes succeeded, in order, and the log
append is unaffected by any write failure.  In particular, when the
write of fact 2 of 3 fails, facts 1 and 3 are persisted. -/
theorem save_memory_in_background_isolation :
    (∀ (prompt response : String) (facts : List String) (write_ok : ℕ → Bool)
        (st : MemoryState),
        (save_memory_in_background prompt response facts write_ok st).log
          = st.log ++ [⟨"assistant", response⟩]
        ∧ (save_memory_in_background prompt response facts write_ok st).store
          = st.store ++ (facts.enum.filter fun p => write_ok p.1).map Prod.snd)
    ∧ save_memory_in_background "p" "resp" ["fact1", "fact2", "fact3"]
        (fun i => decide (i ≠ 1)) ⟨[⟨"user", "p"⟩], ["old"]⟩
        = ⟨[⟨"user", "p"⟩, ⟨"assistant", "resp"⟩], ["old", "fact1", "fact3"]⟩ := by
  constructor
  · intro prompt response facts write_ok st
    exact ⟨rfl, save_facts_loop_eq write_ok facts.enum st.store⟩
  · decide

end ChatMemory
